import Mathlib

/-!
Verification of the orchestration layer of the sentiment-analysis platform:
a shallow embedding of the frontend progress/polling/chat logic
(src/frontend/app.js and the chatbot script), of the PythonServiceClient
gateway HTTP client (C# source), and of the Job Manager / Gateway
validation contracts described by the design document.
-/

namespace SentimentSpec

/-! ### Progress-step highlighting (app.js, updateProgress) -/

/-- One entry of the literal step table inside updateProgress: the DOM
element id of a pipeline step and the progress threshold at which the step
counts as completed. -/
structure StepDef where
  id : String
  threshold : Nat
deriving DecidableEq, Repr

/-- The literal step table of updateProgress. -/
def steps : List StepDef :=
  [⟨"step-init", 10⟩, ⟨"step-download", 20⟩, ⟨"step-extract", 30⟩,
   ⟨"step-analyze", 40⟩, ⟨"step-summarize", 60⟩, ⟨"step-recommend", 75⟩,
   ⟨"step-pdf", 90⟩, ⟨"step-complete", 100⟩]

/-- CSS class state that updateProgress leaves on a step element. -/
inductive StepClass
  | completed
  | active
  | neither
deriving DecidableEq, Repr

/-- Per-step branch of updateProgress: completed once progress has reached
the threshold of the step, active once progress has reached threshold - 10,
otherwise no class. The JS comparison progress >= threshold - 10 is written
threshold <= progress + 10 to keep exact integer semantics over Nat. -/
def classifyStep (progress : Nat) (s : StepDef) : StepClass :=
  if s.threshold ≤ progress then .completed
  else if s.threshold ≤ progress + 10 then .active
  else .neither

/-- Stage table of the design document: element id, lower bound and upper
bound of the progress sub-range of each stage. -/
def specStages : List (String × Nat × Nat) :=
  [("step-init", 0, 10), ("step-download", 10, 20), ("step-extract", 20, 30),
   ("step-analyze", 30, 40), ("step-summarize", 40, 60),
   ("step-recommend", 60, 75), ("step-pdf", 75, 90), ("step-complete", 90, 100)]

/-- The step-highlighting claim as stated: for progress values up to 100, a
step is active exactly when progress lies inside the sub-range of its stage
in the table of the design document, and completed exactly when progress
has reached the upper bound of that sub-range. -/
def stepHighlightClaim : Prop :=
  ∀ p : Nat, p ≤ 100 → ∀ e ∈ specStages,
    (classifyStep p ⟨e.1, e.2.2⟩ = StepClass.active ↔ e.2.1 ≤ p ∧ p < e.2.2) ∧
    (classifyStep p ⟨e.1, e.2.2⟩ = StepClass.completed ↔ e.2.2 ≤ p)

/-! ### Status polling loop (app.js, checkJobStatus and stopPolling) -/

/-- Parsed JSON body of a successful status response. -/
structure StatusData where
  status : String
  progress : Nat
  message : Option String
deriving DecidableEq, Repr

/-- Outcome of one status fetch: a network exception, a response with a
non-ok HTTP status, or a response with parsed JSON data. -/
inductive FetchResult
  | netError
  | httpError (code : Nat)
  | okData (d : StatusData)
deriving DecidableEq, Repr

/-- Decision checkJobStatus takes about the polling timer. -/
inductive PollDecision
  | stop
  | keep
deriving DecidableEq, Repr

/-- One run of checkJobStatus. Without a current job id it stops polling;
a fetch exception or a non-ok response lands in the catch block, which
stops polling and shows the error; with parsed data it stops on status
completed (showing results) or failed (showing the failure message) and
otherwise leaves the polling timer running. -/
def checkJobStatus (currentJobId : Option String) (r : FetchResult) : PollDecision :=
  match currentJobId with
  | none => .stop
  | some _ =>
    match r with
    | .netError => .stop
    | .httpError _ => .stop
    | .okData d =>
      if d.status = "completed" then .stop
      else if d.status = "failed" then .stop
      else .keep

/-- The polling loop: checkJobStatus runs on successive fetch results until
its first stop decision; the result counts the polls actually made. -/
def pollCount (jobId : String) : List FetchResult → Nat
  | [] => 0
  | r :: rs =>
    match checkJobStatus (some jobId) r with
    | .stop => 1
    | .keep => 1 + pollCount jobId rs

/-! ### Email validation (app.js, validateEmail) -/

/-- Whitespace class of the regex escape for the character sets occurring
here (ASCII whitespace). -/
def isJsSpace (c : Char) : Bool :=
  c = ' ' || c = '\t' || c = '\n' || c = '\r' || c = '\x0b' || c = '\x0c'

/-- One character of the bracket class of the email regex: neither
whitespace nor the at sign. -/
def isEmailChar (c : Char) : Bool :=
  !(isJsSpace c) && c ≠ '@'

/-- Splitting a character list at every occurrence of a separator, with JS
String split semantics: empty segments are preserved, and the number of
segments is the number of separators plus one. -/
def splitOnChar (sep : Char) : List Char → List (List Char)
  | [] => [[]]
  | c :: cs =>
    if c = sep then [] :: splitOnChar sep cs
    else
      match splitOnChar sep cs with
      | [] => [[c]]
      | s :: ss => (c :: s) :: ss

/-- JS trim on a character list: leading and trailing whitespace removed. -/
def trimChars (cs : List Char) : List Char :=
  ((cs.dropWhile isJsSpace).reverse.dropWhile isJsSpace).reverse

/-- JS trim on a string. -/
def jsTrim (s : String) : String :=
  ⟨trimChars s.toList⟩

/-- Test of the literal email regex of validateEmail: the string must be a
nonempty run of non-space non-at characters, one at sign, and a domain part
that again holds only non-space non-at characters and contains a dot at an
interior position (so that the runs before and after the dot are both
nonempty). Splitting at the at sign yields exactly two segments precisely
when the string contains a single at sign. -/
def emailRegexTest (cs : List Char) : Bool :=
  match splitOnChar '@' cs with
  | [l, d] =>
    !l.isEmpty && l.all isEmailChar && d.all isEmailChar &&
      (d.drop 1).dropLast.contains '.'
  | _ => false

/-- validateEmail of app.js: a string containing a comma is split at
commas, every piece is trimmed and tested against the regex, and the piece
count is checked positive; a string without a comma is tested raw. -/
def validateEmailChars (cs : List Char) : Bool :=
  if cs.contains ',' then
    (((splitOnChar ',' cs).map trimChars).all emailRegexTest) &&
      decide (0 < ((splitOnChar ',' cs).map trimChars).length)
  else
    emailRegexTest cs

/-- validateEmail on a Lean string. -/
def validateEmail (s : String) : Bool :=
  validateEmailChars s.toList

/-! ### Chatbot initialization (chatbot script, initializeChatbot and
setupChatbotListeners) -/

/-- Mutable module state of the chatbot script: the current job id, the
chatbotInitialized flag, and instrumentation counting how many times
setupChatbotListeners ran and how many send handlers were registered on the
send button. -/
structure ChatbotState where
  chatbotJobId : Option String
  chatbotFlag : Bool
  setupRuns : Nat
  sendHandlers : Nat
deriving DecidableEq, Repr

/-- Module state at script load. -/
def chatbotLoadState : ChatbotState :=
  ⟨none, false, 0, 0⟩

/-- setupChatbotListeners: when a required DOM element is missing it logs
and returns without registering anything; otherwise it registers the send
handler (together with the toggle, close, keypress and suggestion
handlers) exactly once per execution. -/
def setupListeners (domOk : Bool) (st : ChatbotState) : ChatbotState :=
  if domOk then
    { st with setupRuns := st.setupRuns + 1, sendHandlers := st.sendHandlers + 1 }
  else
    { st with setupRuns := st.setupRuns + 1 }

/-- initializeChatbot of the chatbot script: stores the job id, then runs
setupChatbotListeners only while the chatbotInitialized flag is unset, and
finally sets the flag. -/
def initChatbot (domOk : Bool) (jobId : Option String) (st : ChatbotState) : ChatbotState :=
  let st1 := { st with chatbotJobId := jobId }
  if st1.chatbotFlag then st1
  else
    let st2 := setupListeners domOk st1
    { st2 with chatbotFlag := true }

/-- A whole sequence of initializeChatbot calls, each with its own DOM
availability and job id, applied from a starting state. -/
def runInitCalls (calls : List (Bool × Option String)) (st : ChatbotState) : ChatbotState :=
  calls.foldl (fun s c => initChatbot c.1 c.2 s) st

/-! ### Chat send path (chatbot script, sendMessage) -/

/-- One transcript entry of the chat widget: message text and sender. -/
structure ChatMessage where
  text : String
  sender : String
deriving DecidableEq, Repr

/-- Chat state touched by the synchronous prelude of sendMessage: the input
field value, the displayed transcript, and the current job id. -/
structure ChatUiState where
  inputValue : String
  transcript : List ChatMessage
  jobId : Option String
deriving DecidableEq, Repr

/-- What the local validation prelude of sendMessage decides. -/
inductive SendOutcome
  | emptyQuestion
  | noActiveJob
  | requestIssued (question : String)
deriving DecidableEq, Repr

/-- Synchronous prelude of sendMessage up to the fetch call: it trims the
input value, returns immediately on a blank question, appends an advisory
assistant message when no job id is set, and otherwise clears the input,
appends the user message to the transcript and issues the chat request
with the trimmed question. -/
def sendMessageStep (st : ChatUiState) : SendOutcome × ChatUiState :=
  let question := jsTrim st.inputValue
  if question = "" then
    (.emptyQuestion, st)
  else
    match st.jobId with
    | none =>
      (.noActiveJob,
        { st with transcript := st.transcript ++
            [⟨"Please complete an analysis first before using the chatbot.", "assistant"⟩] })
    | some _ =>
      (.requestIssued question,
        { st with inputValue := "",
                  transcript := st.transcript ++ [⟨question, "user"⟩] })

/-- displaySuggestedQuestions of the chatbot script: the container is
cleared and one suggestion chip is appended per element of the first six
suggestions, in order. The result lists the rendered chip texts. -/
def displaySuggestedQuestions (suggestions : List String) : List String :=
  suggestions.take 6

/-! ### Gateway HTTP client (C# PythonServiceClient) -/

/-- Outcome of an HTTP call made by the gateway client: a response carrying
the success flag and the deserialized body, or a thrown transport
exception. -/
inductive HttpOutcome (α : Type)
  | response (isSuccess : Bool) (body : α)
  | thrown (msg : String)
deriving DecidableEq, Repr

/-- JobStatus model of the gateway (C# Models): job id, status string,
progress and optional message; the further optional fields are not read by
the operations treated here. -/
structure JobStatus where
  jobId : String
  status : String
  progress : Nat
  message : Option String
deriving DecidableEq, Repr

/-- AnalysisResults model of the gateway (C# Models): six optional
dictionaries, modelled as association lists from keys to rendered values. -/
structure AnalysisResults where
  trends : Option (List (String × String))
  positiveSummary : Option (List (String × String))
  negativeSummary : Option (List (String × String))
  neutralSummary : Option (List (String × String))
  recommendations : Option (List (String × String))
  statistics : Option (List (String × String))
deriving DecidableEq, Repr

/-- Parsed body of the chat-suggestions endpoint as the client reads it:
whether the suggestions key is present and the deserialized list (none for
a JSON null). -/
structure ChatSuggestionsBody where
  hasKey : Bool
  value : Option (List String)
deriving DecidableEq, Repr

/-- Parsed body of the backend chat endpoint as the client reads it: the
optional answer entry (whose value may itself be JSON null) and the
suggested question list the backend may include alongside it. -/
structure ChatResponseBody where
  answerEntry : Option (Option String)
  suggestedQuestions : Option (List String)
deriving DecidableEq, Repr

/-- A C# try block modelled in the exception dimension: ok is a normal
return, error a thrown exception. -/
def CsResult (α : Type) : Type :=
  Except String α

/-- try with a catch-all handler that returns normally. -/
def tryCatch (body : CsResult α) (handler : String → α) : α :=
  match body with
  | .ok v => v
  | .error e => handler e

/-- Try block of GetJobStatusAsync: the awaited GET may throw; a non-ok
status returns null; otherwise the deserialized body is returned. -/
def getJobStatusBody (call : HttpOutcome (Option JobStatus)) : CsResult (Option JobStatus) :=
  match call with
  | .thrown e => .error e
  | .response ok body => if ok then .ok body else .ok none

/-- GetJobStatusAsync: the try block wrapped in the catch-all that logs and
returns null. -/
def getJobStatusAsync (call : HttpOutcome (Option JobStatus)) : Option JobStatus :=
  tryCatch (getJobStatusBody call) (fun _ => none)

/-- Try block of GetAnalysisDataAsync, same shape as the status lookup. -/
def getAnalysisDataBody (call : HttpOutcome (Option AnalysisResults)) :
    CsResult (Option AnalysisResults) :=
  match call with
  | .thrown e => .error e
  | .response ok body => if ok then .ok body else .ok none

/-- GetAnalysisDataAsync: the try block wrapped in the catch-all that logs
and returns null. -/
def getAnalysisDataAsync (call : HttpOutcome (Option AnalysisResults)) :
    Option AnalysisResults :=
  tryCatch (getAnalysisDataBody call) (fun _ => none)

/-- Try block of GetChatSuggestionsAsync: EnsureSuccessStatusCode throws on
a non-ok status; a null dictionary, a missing suggestions key or a null
list all yield the empty list. -/
def getChatSuggestionsBody (call : HttpOutcome (Option ChatSuggestionsBody)) :
    CsResult (List String) :=
  match call with
  | .thrown e => .error e
  | .response ok body =>
    if !ok then .error "HttpRequestException"
    else
      match body with
      | none => .ok []
      | some b => if b.hasKey then .ok (b.value.getD []) else .ok []

/-- GetChatSuggestionsAsync: the try block wrapped in the catch-all that
logs and returns the empty list. -/
def getChatSuggestionsAsync (call : HttpOutcome (Option ChatSuggestionsBody)) :
    List String :=
  tryCatch (getChatSuggestionsBody call) (fun _ => [])

/-- Try block of ClearChatHistoryAsync: the awaited DELETE may throw, and
the success flag of the response is returned directly. -/
def clearChatHistoryBody (call : HttpOutcome Unit) : CsResult Bool :=
  match call with
  | .thrown e => .error e
  | .response ok _ => .ok ok

/-- ClearChatHistoryAsync: the try block wrapped in the catch-all that logs
and returns false. -/
def clearChatHistoryAsync (call : HttpOutcome Unit) : Bool :=
  tryCatch (clearChatHistoryBody call) (fun _ => false)

/-- True when the upstream call did not produce a successful response. -/
def httpFailed : HttpOutcome α → Bool
  | .thrown _ => true
  | .response ok _ => !ok

/-- SendChatMessageAsync: EnsureSuccessStatusCode throws on a non-ok
status; from the parsed dictionary only the answer entry is read, with a
fixed fallback text for a null dictionary, a missing key or a null value;
the catch block logs and rethrows, so the transport error propagates. The
suggested question list of the body is never consulted. -/
def sendChatMessageAsync (call : HttpOutcome (Option ChatResponseBody)) :
    CsResult String :=
  match call with
  | .thrown e => .error e
  | .response ok body =>
    if !ok then .error "HttpRequestException"
    else
      match body with
      | none => .ok "No response from chatbot"
      | some b =>
        match b.answerEntry with
        | some (some a) => .ok a
        | some none => .ok "No response from chatbot"
        | none => .ok "No response from chatbot"

/-- The chat-shape claim: some reading of the gateway chat result recovers
the suggested questions whenever the backend includes them in a successful
chat response. -/
def chatCarriesSuggestions : Prop :=
  ∃ extract : CsResult String → Option (List String),
    ∀ (b : ChatResponseBody) (qs : List String),
      b.suggestedQuestions = some qs →
      extract (sendChatMessageAsync (HttpOutcome.response true (some b))) = some qs

/-! ### Gateway request validation and Job Manager progress protocol.
The SentimentController of the gateway and the Job Manager of the Python
service are not among the available sources; both are modelled from the
design document and marked as such. -/

/-- AnalysisRequest model of the gateway (C# Models): optional url, html
content, email, custom prompt and search method. -/
structure AnalysisRequest where
  url : Option String
  htmlContent : Option String
  email : Option String
  customPrompt : Option String
  searchMethod : Option String
deriving DecidableEq, Repr

/-- Modelled from the spec: a usable source specifier (the analyze endpoint
of the gateway controller is missing from the sources). The demo search
method needs no source; otherwise a nonblank url or nonblank html content
must be present. -/
def hasUsableSource (r : AnalysisRequest) : Bool :=
  r.searchMethod == some "demo" ||
    !(jsTrim (r.url.getD "")).isEmpty ||
    !(jsTrim (r.htmlContent.getD "")).isEmpty

/-- HTTP-level result of the modelled analyze endpoint. -/
inductive AnalyzeResult
  | accepted (js : JobStatus)
  | badRequest (error : String)
deriving DecidableEq, Repr

/-- Modelled from the spec: the analyze handler of the gateway controller
(missing from the sources). It validates the request at the boundary,
answering 400 InvalidRequest without any downstream call when no usable
source is present, and otherwise forwards to the downstream start
operation. The boolean records whether the Job Manager was reached. -/
def gatewayAnalyze (startAnalysis : AnalysisRequest → JobStatus)
    (r : AnalysisRequest) : AnalyzeResult × Bool :=
  if hasUsableSource r then
    (.accepted (startAnalysis r), true)
  else
    (.badRequest "InvalidRequest", false)

/-- Job lifecycle status values of the state machine of the design
document. -/
inductive JobPhase
  | pending
  | running
  | completed
  | failed
deriving DecidableEq, Repr

/-- Modelled from the spec: the Job record held by the Job Manager (the
Python service implementation is missing from the sources). -/
structure ManagedJob where
  phase : JobPhase
  progress : Nat
  message : Option String
deriving DecidableEq, Repr

/-- Modelled from the spec: UpdateProgress of the Job Manager. Progress
callbacks for a terminal job are no-ops, an out-of-order decrease is
rejected as a no-op, and otherwise the job is set to running with the new
progress and message. -/
def updateProgress (j : ManagedJob) (p : Nat) (msg : Option String) : ManagedJob :=
  match j.phase with
  | .completed => j
  | .failed => j
  | _ =>
    if p < j.progress then j
    else { phase := .running, progress := p, message := msg }

/-- GetStatus projection: the progress value a poller observes. -/
def getStatusProgress (j : ManagedJob) : Nat :=
  j.progress

/-- The progress values a poller observes when reading the job before and
after each update of a call sequence. -/
def observedProgress (j : ManagedJob) (calls : List (Nat × Option String)) : List Nat :=
  (List.scanl (fun jb c => updateProgress jb c.1 c.2) j calls).map getStatusProgress

end SentimentSpec

namespace SentimentSpec

/-! ### Theorems for the step-highlighting and polling claims -/

/-- C1, counterexample: at progress 45 the stage table of the design
document puts step-summarize (sub-range 40 to 60) in the active state, but
updateProgress gives it neither the active nor the completed class, so the
claim as stated is false. -/
theorem c1_stepHighlight_cex : ¬ stepHighlightClaim := by
  intro h
  have h45 := (h 45 (by decide) ("step-summarize", 40, 60) (by decide)).1
  have hact : classifyStep 45 ⟨"step-summarize", 60⟩ = StepClass.active :=
    h45.mpr (by decide)
  exact absurd hact (by decide)

/-- C1, amended: for every step of the updateProgress table, the step is
completed exactly when progress has reached its threshold, and active
exactly when progress lies within the ten points directly below the
threshold; stages whose sub-range in the design document is wider than ten
points therefore show no highlight on the early part of their range. -/
theorem c1_stepHighlight_amended :
    ∀ (p : Nat), ∀ s ∈ steps,
      (classifyStep p s = StepClass.completed ↔ s.threshold ≤ p) ∧
      (classifyStep p s = StepClass.active ↔ s.threshold ≤ p + 10 ∧ p < s.threshold) := by
  intro p s _
  unfold classifyStep
  split_ifs with h1 h2 <;>
    refine ⟨?_, ?_⟩ <;> simp_all

/-- Witness for the amended C1 theorem at progress 45 and step-summarize. -/
theorem c1_stepHighlight_amended_witness :
    (StepDef.mk "step-summarize" 60 ∈ steps) ∧
      ((classifyStep 45 (StepDef.mk "step-summarize" 60) = StepClass.completed ↔
          (60 : Nat) ≤ 45) ∧
       (classifyStep 45 (StepDef.mk "step-summarize" 60) = StepClass.active ↔
          (60 : Nat) ≤ 45 + 10 ∧ 45 < 60)) :=
  ⟨by decide, c1_stepHighlight_amended 45 (StepDef.mk "step-summarize" 60) (by decide)⟩

/-- C4: with a parsed status response the polling loop stops exactly on the
terminal statuses completed and failed, and it keeps polling through every
stream of non-terminal parsed responses. -/
theorem c4_poll_until_terminal :
    (∀ (j : String) (d : StatusData),
        checkJobStatus (some j) (.okData d) = .stop ↔
          d.status = "completed" ∨ d.status = "failed") ∧
    (∀ (j : String) (ds : List StatusData),
        (∀ d ∈ ds, d.status ≠ "completed" ∧ d.status ≠ "failed") →
        pollCount j (ds.map FetchResult.okData) = ds.length) := by
  constructor
  · intro j d
    unfold checkJobStatus
    by_cases h1 : d.status = "completed" <;> by_cases h2 : d.status = "failed" <;>
      simp [h1, h2]
  · intro j ds
    induction ds with
    | nil => intro _; rfl
    | cons d ds ih =>
      intro h
      have hd := h d (by simp)
      have hrest : ∀ x ∈ ds, x.status ≠ "completed" ∧ x.status ≠ "failed" :=
        fun x hx => h x (by simp [hx])
      simp only [List.map_cons, pollCount, checkJobStatus]
      rw [if_neg hd.1, if_neg hd.2]
      simp [ih hrest]
      omega

/-- Witness for C4: a two-element stream of running statuses is polled to
its full length. -/
theorem c4_poll_until_terminal_witness :
    pollCount "job-1"
        (List.map FetchResult.okData
          [⟨"running", 10, none⟩, ⟨"running", 55, none⟩]) =
      List.length ([⟨"running", 10, none⟩, ⟨"running", 55, none⟩] : List StatusData) :=
  c4_poll_until_terminal.2 "job-1" [⟨"running", 10, none⟩, ⟨"running", 55, none⟩]
    (by decide)

/-! ### Helper lemmas about comma splitting -/

/-- splitOnChar always yields at least one segment. -/
theorem splitOnChar_ne_nil (sep : Char) (cs : List Char) :
    splitOnChar sep cs ≠ [] := by
  cases cs with
  | nil => simp [splitOnChar]
  | cons c cs =>
    unfold splitOnChar
    by_cases h : c = sep
    · simp [h]
    · simp only [h, if_false]
      cases splitOnChar sep cs <;> simp

/-- The last element of a list is a member of it. -/
theorem mem_of_getLast?_some {α : Type} {l : List α} {a : α}
    (h : l.getLast? = some a) : a ∈ l := by
  induction l with
  | nil => simp at h
  | cons b m ih =>
    cases m with
    | nil =>
      simp at h
      simp [h]
    | cons c m2 =>
      rw [List.getLast?_cons_cons] at h
      exact List.mem_cons_of_mem b (ih h)

/-- A list with at least one separator splits into at least two segments. -/
theorem splitOnChar_two_of_mem (sep : Char) (cs : List Char) (h : sep ∈ cs) :
    2 ≤ (splitOnChar sep cs).length := by
  induction cs with
  | nil => simp at h
  | cons c cs ih =>
    unfold splitOnChar
    by_cases hc : c = sep
    · simp only [hc, if_true]
      have hne := splitOnChar_ne_nil sep cs
      cases hsp : splitOnChar sep cs with
      | nil => exact absurd hsp hne
      | cons s ss => simp
    · have hmem : sep ∈ cs := by
        rcases List.mem_cons.mp h with h1 | h1
        · exact absurd h1.symm hc
        · exact h1
      have h2 := ih hmem
      simp only [hc, if_false]
      cases hsp : splitOnChar sep cs with
      | nil => exact absurd hsp (splitOnChar_ne_nil sep cs)
      | cons s ss =>
        rw [hsp] at h2
        simpa using h2

/-- A list ending in the separator splits with an empty last segment. -/
theorem splitOnChar_getLast_sep (sep : Char) (cs : List Char)
    (h : cs.getLast? = some sep) :
    (splitOnChar sep cs).getLast? = some [] := by
  induction cs with
  | nil => simp at h
  | cons c cs ih =>
    cases cs with
    | nil =>
      simp at h
      simp [h, splitOnChar]
    | cons c2 cs2 =>
      rw [List.getLast?_cons_cons] at h
      have ih2 := ih h
      have hmem : sep ∈ c2 :: cs2 := mem_of_getLast?_some h
      have hlen := splitOnChar_two_of_mem sep (c2 :: cs2) hmem
      unfold splitOnChar
      by_cases hc : c = sep
      · simp only [hc, if_true]
        cases hsp : splitOnChar sep (c2 :: cs2) with
        | nil => exact absurd hsp (splitOnChar_ne_nil sep (c2 :: cs2))
        | cons s ss =>
          rw [hsp] at ih2
          rw [List.getLast?_cons_cons]
          exact ih2
      · simp only [hc, if_false]
        cases hsp : splitOnChar sep (c2 :: cs2) with
        | nil => exact absurd hsp (splitOnChar_ne_nil sep (c2 :: cs2))
        | cons s ss =>
          rw [hsp] at ih2 hlen
          cases ss with
          | nil => simp at hlen
          | cons s2 ss2 =>
            rw [List.getLast?_cons_cons] at ih2 ⊢
            exact ih2

/-- C9: validateEmail accepts exactly the comma-free strings matching the
email regex and the comma-carrying strings all of whose trimmed segments
match it, and every character list ending in a comma (hence with an empty
trailing segment) is rejected. -/
theorem c9_validateEmail_characterization :
    (∀ cs : List Char,
        validateEmailChars cs = true ↔
          ((cs.contains ',' = false ∧ emailRegexTest cs = true) ∨
           (cs.contains ',' = true ∧
             ∀ e ∈ (splitOnChar ',' cs).map trimChars, emailRegexTest e = true))) ∧
    (∀ cs : List Char, cs.getLast? = some ',' → validateEmailChars cs = false) := by
  constructor
  · intro cs
    unfold validateEmailChars
    cases hc : cs.contains ','
    · simp [hc]
    · have hpos : 0 < (splitOnChar ',' cs).length := by
        have hne := splitOnChar_ne_nil ',' cs
        cases h2 : splitOnChar ',' cs with
        | nil => exact absurd h2 hne
        | cons s ss => simp [h2]
      simp [hc, hpos, List.all_eq_true]
  · intro cs h
    have hmem : ',' ∈ cs := mem_of_getLast?_some h
    have hcont : cs.contains ',' = true := by simpa using hmem
    have hsplit := splitOnChar_getLast_sep ',' cs h
    have hmemL : ([] : List Char) ∈ (splitOnChar ',' cs).map trimChars := by
      have h0 : ([] : List Char) ∈ splitOnChar ',' cs := mem_of_getLast?_some hsplit
      simpa using List.mem_map_of_mem trimChars h0
    have htest : emailRegexTest [] = false := rfl
    have hall : ((splitOnChar ',' cs).map trimChars).all emailRegexTest = false := by
      cases hLall : ((splitOnChar ',' cs).map trimChars).all emailRegexTest
      · rfl
      · exfalso
        have := List.all_eq_true.mp hLall _ hmemL
        rw [htest] at this
        cases this
    simp [validateEmailChars, hcont, hall, hmem]

/-- Witness for C9: the string a@b.c followed by a comma ends in a comma
and is rejected. -/
theorem c9_validateEmail_characterization_witness :
    validateEmailChars ("a@b.c,".toList) = false :=
  c9_validateEmail_characterization.2 ("a@b.c,".toList) (by decide)

/-! ### Theorems about chatbot initialization and the send path -/

/-- One initializeChatbot call preserves the setup invariant: at most one
setup run so far, no more handler registrations than setup runs, and no
setup run before the flag is set. -/
theorem initChatbot_inv (domOk : Bool) (jobId : Option String) (st : ChatbotState)
    (h1 : st.setupRuns ≤ 1) (h2 : st.sendHandlers ≤ st.setupRuns)
    (h3 : st.chatbotFlag = false → st.setupRuns = 0) :
    (initChatbot domOk jobId st).setupRuns ≤ 1 ∧
      (initChatbot domOk jobId st).sendHandlers ≤ (initChatbot domOk jobId st).setupRuns ∧
      ((initChatbot domOk jobId st).chatbotFlag = false →
        (initChatbot domOk jobId st).setupRuns = 0) := by
  unfold initChatbot setupListeners
  by_cases hf : st.chatbotFlag
  · simp [hf, h1, h2]
  · have h0 : st.setupRuns = 0 := h3 (by simpa using hf)
    by_cases hd : domOk <;> simp [hf, hd] <;> omega

/-- The setup invariant survives a whole sequence of initializeChatbot
calls. -/
theorem runInitCalls_inv (calls : List (Bool × Option String)) :
    ∀ st : ChatbotState,
      st.setupRuns ≤ 1 → st.sendHandlers ≤ st.setupRuns →
      (st.chatbotFlag = false → st.setupRuns = 0) →
      (runInitCalls calls st).setupRuns ≤ 1 ∧
        (runInitCalls calls st).sendHandlers ≤ (runInitCalls calls st).setupRuns := by
  induction calls with
  | nil => intro st h1 h2 _; exact ⟨h1, h2⟩
  | cons c cs ih =>
    intro st h1 h2 h3
    have hstep := initChatbot_inv c.1 c.2 st h1 h2 h3
    have hrw : runInitCalls (c :: cs) st = runInitCalls cs (initChatbot c.1 c.2 st) := rfl
    rw [hrw]
    exact ih _ hstep.1 hstep.2.1 hstep.2.2

/-- C10: across every sequence of initializeChatbot calls from the loaded
page, setupChatbotListeners executes at most once, so at most one send
handler is ever registered. -/
theorem c10_listeners_at_most_once :
    ∀ calls : List (Bool × Option String),
      (runInitCalls calls chatbotLoadState).setupRuns ≤ 1 ∧
      (runInitCalls calls chatbotLoadState).sendHandlers ≤ 1 := by
  intro calls
  have h := runInitCalls_inv calls chatbotLoadState (by decide) (by decide) (fun _ => rfl)
  exact ⟨h.1, le_trans h.2 h.1⟩

/-- C7: a question that is blank after trimming makes sendMessage return
with the empty-question outcome, leaving the whole chat state (input value
and transcript) untouched and issuing no request. -/
theorem c7_empty_question_no_mutation :
    ∀ st : ChatUiState, jsTrim st.inputValue = "" →
      sendMessageStep st = (SendOutcome.emptyQuestion, st) := by
  intro st h
  simp [sendMessageStep, h]

/-- Witness for C7: a whitespace-only input triggers the empty-question
outcome with unchanged state. -/
theorem c7_empty_question_no_mutation_witness :
    sendMessageStep ⟨"   ", [], some "job-7"⟩ =
      (SendOutcome.emptyQuestion, ⟨"   ", [], some "job-7"⟩) :=
  c7_empty_question_no_mutation ⟨"   ", [], some "job-7"⟩ (by decide)

/-- C6: at most six suggested questions are rendered, and the rendered
chips agree with the given suggestions position by position, so order is
preserved. -/
theorem c6_suggestions_capped :
    ∀ l : List String,
      (displaySuggestedQuestions l).length ≤ 6 ∧
      ∀ i : Nat, i < (displaySuggestedQuestions l).length →
        (displaySuggestedQuestions l).getD i "" = l.getD i "" := by
  intro l
  constructor
  · simp [displaySuggestedQuestions]
  · intro i hi
    unfold displaySuggestedQuestions at hi ⊢
    rw [List.length_take] at hi
    have hl : i < l.length := lt_of_lt_of_le hi (Nat.min_le_right _ _)
    rw [List.getD_eq_getElem _ _ (by rw [List.length_take]; exact hi),
        List.getD_eq_getElem _ _ hl]
    simp [List.getElem_take]

/-- Witness for C6: seven suggestions render six chips and the first chip
is the first suggestion. -/
theorem c6_suggestions_capped_witness :
    (displaySuggestedQuestions ["q1", "q2", "q3", "q4", "q5", "q6", "q7"]).length ≤ 6 ∧
    (displaySuggestedQuestions ["q1", "q2", "q3", "q4", "q5", "q6", "q7"]).getD 0 "" =
      (["q1", "q2", "q3", "q4", "q5", "q6", "q7"] : List String).getD 0 "" :=
  ⟨(c6_suggestions_capped ["q1", "q2", "q3", "q4", "q5", "q6", "q7"]).1,
   (c6_suggestions_capped ["q1", "q2", "q3", "q4", "q5", "q6", "q7"]).2 0 (by decide)⟩

/-! ### Theorems about the gateway HTTP client -/

/-- C5, counterexample: no reading of the gateway chat result can recover
the suggested questions, because two successful backend bodies with the
same answer but different suggestion lists produce the same result. -/
theorem c5_suggestions_not_carried_cex : ¬ chatCarriesSuggestions := by
  rintro ⟨f, hf⟩
  have h1 := hf ⟨some (some "A"), some ["q1"]⟩ ["q1"] rfl
  have h2 := hf ⟨some (some "A"), some ["q2"]⟩ ["q2"] rfl
  have e1 : sendChatMessageAsync
      (HttpOutcome.response true (some ⟨some (some "A"), some ["q1"]⟩)) =
      Except.ok "A" := rfl
  have e2 : sendChatMessageAsync
      (HttpOutcome.response true (some ⟨some (some "A"), some ["q2"]⟩)) =
      Except.ok "A" := rfl
  rw [e1] at h1
  rw [e2] at h2
  rw [h1] at h2
  exact absurd h2 (by decide)

/-- C5, amended: a successful chat call through the gateway client yields
exactly the answer entry of the backend body, with the fixed fallback text
for a missing or null answer, and the result never varies with the
suggested question list, which the client discards. -/
theorem c5_chat_answer_only :
    ∀ b : ChatResponseBody,
      sendChatMessageAsync (HttpOutcome.response true (some b)) =
        Except.ok ((b.answerEntry.bind id).getD "No response from chatbot") ∧
      ∀ qs : Option (List String),
        sendChatMessageAsync
            (HttpOutcome.response true (some { b with suggestedQuestions := qs })) =
          sendChatMessageAsync (HttpOutcome.response true (some b)) := by
  intro b
  rcases b with ⟨ae, sq⟩
  constructor
  · rcases ae with _ | a
    · rfl
    · rcases a with _ | a <;> rfl
  · intro qs
    rcases ae with _ | a
    · rfl
    · rcases a with _ | a <;> rfl

/-- C8: the four read-style client operations never propagate an upstream
failure; a non-success status or a thrown exception yields null for the
status and data lookups, the empty list for the suggestions lookup, and
false for the history clear. -/
theorem c8_read_ops_error_totality :
    ∀ (s1 : HttpOutcome (Option JobStatus)) (s2 : HttpOutcome (Option AnalysisResults))
      (s3 : HttpOutcome (Option ChatSuggestionsBody)) (s4 : HttpOutcome Unit),
      (httpFailed s1 = true → getJobStatusAsync s1 = none) ∧
      (httpFailed s2 = true → getAnalysisDataAsync s2 = none) ∧
      (httpFailed s3 = true → getChatSuggestionsAsync s3 = []) ∧
      (httpFailed s4 = true → clearChatHistoryAsync s4 = false) := by
  intro s1 s2 s3 s4
  refine ⟨?_, ?_, ?_, ?_⟩
  · rcases s1 with ⟨ok, body⟩ | e
    · intro h
      simp only [httpFailed, Bool.not_eq_eq_eq_not, Bool.not_true] at h
      simp [getJobStatusAsync, getJobStatusBody, tryCatch, h]
    · intro _; rfl
  · rcases s2 with ⟨ok, body⟩ | e
    · intro h
      simp only [httpFailed, Bool.not_eq_eq_eq_not, Bool.not_true] at h
      simp [getAnalysisDataAsync, getAnalysisDataBody, tryCatch, h]
    · intro _; rfl
  · rcases s3 with ⟨ok, body⟩ | e
    · intro h
      simp only [httpFailed, Bool.not_eq_eq_eq_not, Bool.not_true] at h
      simp [getChatSuggestionsAsync, getChatSuggestionsBody, tryCatch, h]
    · intro _; rfl
  · rcases s4 with ⟨ok, body⟩ | e
    · intro h
      simp only [httpFailed, Bool.not_eq_eq_eq_not, Bool.not_true] at h
      simp [clearChatHistoryAsync, clearChatHistoryBody, tryCatch, h]
    · intro _; rfl

/-- Witness for C8: one failing call per operation, covering both the
thrown and the non-success shapes. -/
theorem c8_read_ops_error_totality_witness :
    getJobStatusAsync (HttpOutcome.thrown "boom") = none ∧
    getAnalysisDataAsync (HttpOutcome.response false none) = none ∧
    getChatSuggestionsAsync (HttpOutcome.thrown "down") = [] ∧
    clearChatHistoryAsync (HttpOutcome.response false ()) = false :=
  ⟨(c8_read_ops_error_totality (HttpOutcome.thrown "boom")
      (HttpOutcome.response false none) (HttpOutcome.thrown "down")
      (HttpOutcome.response false ())).1 (by decide),
   (c8_read_ops_error_totality (HttpOutcome.thrown "boom")
      (HttpOutcome.response false none) (HttpOutcome.thrown "down")
      (HttpOutcome.response false ())).2.1 (by decide),
   (c8_read_ops_error_totality (HttpOutcome.thrown "boom")
      (HttpOutcome.response false none) (HttpOutcome.thrown "down")
      (HttpOutcome.response false ())).2.2.1 (by decide),
   (c8_read_ops_error_totality (HttpOutcome.thrown "boom")
      (HttpOutcome.response false none) (HttpOutcome.thrown "down")
      (HttpOutcome.response false ())).2.2.2 (by decide)⟩

/-! ### Theorems about the modelled gateway validation and Job Manager -/

/-- C2: a request without a usable source specifier is answered with 400
InvalidRequest at the boundary and the downstream Job Manager call is
never made. -/
theorem c2_invalid_request_rejected :
    ∀ (startAnalysis : AnalysisRequest → JobStatus) (r : AnalysisRequest),
      hasUsableSource r = false →
      gatewayAnalyze startAnalysis r = (AnalyzeResult.badRequest "InvalidRequest", false) := by
  intro sa r h
  simp [gatewayAnalyze, h]

/-- Witness for C2: a keywords request with no url and no html content is
rejected without a downstream call. -/
theorem c2_invalid_request_rejected_witness :
    gatewayAnalyze (fun _ => ⟨"job-1", "pending", 0, none⟩)
        ⟨none, none, some "user@example.com", none, some "keywords"⟩ =
      (AnalyzeResult.badRequest "InvalidRequest", false) :=
  c2_invalid_request_rejected (fun _ => ⟨"job-1", "pending", 0, none⟩)
    ⟨none, none, some "user@example.com", none, some "keywords"⟩ (by decide)

/-- UpdateProgress never lowers the stored progress value. -/
theorem updateProgress_mono (j : ManagedJob) (p : Nat) (m : Option String) :
    j.progress ≤ (updateProgress j p m).progress := by
  rcases j with ⟨ph, pr, msg⟩
  cases ph <;> simp [updateProgress] <;> split_ifs with h <;> simp <;> omega

/-- The observed progress sequence of any update sequence is a
non-decreasing chain. -/
theorem observedProgress_chain (calls : List (Nat × Option String)) :
    ∀ j : ManagedJob, List.Chain' (· ≤ ·) (observedProgress j calls) := by
  induction calls with
  | nil => intro j; simp [observedProgress, List.scanl]
  | cons c cs ih =>
    intro j
    have hstep := updateProgress_mono j c.1 c.2
    have htail := ih (updateProgress j c.1 c.2)
    unfold observedProgress at htail ⊢
    rw [List.scanl_cons]
    obtain ⟨t, ht⟩ :
        ∃ t, List.scanl (fun jb u => updateProgress jb u.1 u.2)
            (updateProgress j c.1 c.2) cs = updateProgress j c.1 c.2 :: t := by
      cases cs <;> exact ⟨_, rfl⟩
    rw [ht]
    rw [ht] at htail
    simp only [List.cons_append, List.nil_append, List.map_cons]
    rw [List.chain'_cons]
    constructor
    · exact hstep
    · simpa using htail

/-- C3: through any sequence of UpdateProgress calls the progress values a
poller observes via GetStatus form a monotonically non-decreasing
sequence, and a reported decrease is rejected outright, leaving the job
record unchanged. -/
theorem c3_progress_monotone :
    (∀ (j : ManagedJob) (calls : List (Nat × Option String)),
        List.Chain' (· ≤ ·) (observedProgress j calls)) ∧
    (∀ (j : ManagedJob) (p : Nat) (m : Option String),
        p < j.progress → updateProgress j p m = j) := by
  constructor
  · intro j calls
    exact observedProgress_chain calls j
  · intro j p m h
    rcases j with ⟨ph, pr, msg⟩
    cases ph <;> simp [updateProgress, h]

/-- Witness for C3: a decreasing second update is rejected and observation
stays monotone. -/
theorem c3_progress_monotone_witness :
    List.Chain' (· ≤ ·)
        (observedProgress ⟨JobPhase.running, 50, none⟩ [(60, none), (40, none)]) ∧
    updateProgress ⟨JobPhase.running, 50, none⟩ 40 none = ⟨JobPhase.running, 50, none⟩ :=
  ⟨c3_progress_monotone.1 ⟨JobPhase.running, 50, none⟩ [(60, none), (40, none)],
   c3_progress_monotone.2 ⟨JobPhase.running, 50, none⟩ 40 none (by decide)⟩

end SentimentSpec
